import Mathlib

/-!
Shallow embedding of the core of `src/tools.py`: the JSON-extraction helper
`extract_json` and the PDF report builder `write_to_pdf`.

Conventions: Python strings are modelled as `List Char` where character-level
scanning matters; Python numbers (int/float amounts) as `ℚ`; a Python
exception escaping a function as `none` (for the report builder) or
`Except.error` (for the extractor).  The standard-library JSON parser
`json.loads` is external library code and is taken as a parameter of
`extract_json`.  ReportLab styling commands (colors, fonts, paddings) carry
no data dependence and are reflected only in the choice of `Element`
constructor; the data each flowable carries (texts, column widths, spacer
sizes, table rows) is embedded.
-/

unseal Rat.mul Rat.add Rat.sub Rat.inv Rat.ofScientific

namespace Forza

def lbrace : Char := Char.ofNat 123

def rbrace : Char := Char.ofNat 125

def squote : Char := Char.ofNat 39

def dquote : Char := Char.ofNat 34

/-- Python `str.strip(chars)` / `str.strip()`: remove the characters
satisfying `p` from both ends of the string. -/
def pyStrip (p : Char → Bool) (l : List Char) : List Char :=
  ((l.dropWhile p).reverse.dropWhile p).reverse

/-- The whitespace characters stripped by Python `str.strip()`
(the ASCII ones: space, tab, newline, carriage return, vertical tab,
form feed). -/
def pyIsSpace (c : Char) : Bool :=
  c == Char.ofNat 32 || c == Char.ofNat 9 || c == Char.ofNat 10 ||
  c == Char.ofNat 13 || c == Char.ofNat 11 || c == Char.ofNat 12

/-- `json_str.strip("'''").strip('"""').strip()` from `extract_json`:
strip single quotes, then double quotes, then whitespace. -/
def clean (l : List Char) : List Char :=
  pyStrip pyIsSpace (pyStrip (fun c => c == dquote) (pyStrip (fun c => c == squote) l))

/-- JSON values, the codomain of the external parser. -/
inductive Json where
  | null
  | bool (b : Bool)
  | num (q : ℚ)
  | str (s : String)
  | arr (elems : List Json)
  | obj (members : List (String × Json))

/-- The two ways `extract_json` raises: the explicit
`ValueError("No JSON found in the Groq response")` when the regex finds no
match, and the `json.JSONDecodeError` escaping from `json.loads`. -/
inductive ExtractErr where
  | noJson
  | decodeError
deriving DecidableEq, Repr

/-- The suffix of `l` starting at its first opening brace
(empty when there is none). -/
def afterFirstBrace (l : List Char) : List Char :=
  l.dropWhile (fun c => c != lbrace)

/-- The prefix of `l` ending at its last closing brace
(empty when there is none). -/
def untilLastClose (l : List Char) : List Char :=
  (l.reverse.dropWhile (fun c => c != rbrace)).reverse

/-- The regex search in `extract_json` (pattern: an opening brace, then a
greedy dot-all run, then a closing brace): it matches exactly the span from
the first opening brace to the last closing brace, provided a closing brace
occurs after the first opening brace. -/
def findSpan (l : List Char) : Option (List Char) :=
  let m := untilLastClose (afterFirstBrace l)
  if m.isEmpty then none else some m

/-- `extract_json` from `src/tools.py`, with `json.loads` passed as the
parameter `parse` (returning `none` where the library parser raises). -/
def extract_json (parse : List Char → Option Json) (json_str : List Char) :
    Except ExtractErr Json :=
  match findSpan (clean json_str) with
  | some sp =>
      match parse sp with
      | some j => Except.ok j
      | none => Except.error ExtractErr.decodeError
  | none => Except.error ExtractErr.noJson

/-- The value of an item's `"amount"` field: a number, or some non-numeric
JSON value (modelled by its textual form). -/
inductive PyVal where
  | num (q : ℚ)
  | str (s : String)
deriving DecidableEq, Repr

/-- One line-item record: each of the `"label"` / `"amount"` keys may be
absent. -/
structure Item where
  label : Option String
  amount : Option PyVal
deriving DecidableEq, Repr

/-- A section value: an insertion-ordered mapping of category name to list
of items. -/
abbrev SectionData := List (String × List Item)

/-- The top-level `data_dict`: an insertion-ordered mapping with unique
keys. -/
abbrev DataDict := List (String × SectionData)

/-- Python `k in d` / `d[k]` on a dict, as lookup on the ordered
association list. -/
def dictGet (d : DataDict) (k : String) : Option SectionData :=
  match d with
  | [] => none
  | (k₁, v) :: rest => if k₁ = k then some v else dictGet rest k

/-- ReportLab `cm` in points. -/
def cmQ : ℚ := 3600 / 127

/-- ReportLab `mm` in points. -/
def mmQ : ℚ := 360 / 127

/-- ReportLab `A4` page size in points. -/
def A4size : ℚ × ℚ := (210 * mmQ, 297 * mmQ)

/-- Insert a comma after every third digit, working on the reversed digit
list (the thousands grouping of the format spec). -/
def group3 : List Char → List Char
  | a :: b :: c :: d :: rest => a :: b :: c :: Char.ofNat 44 :: group3 (d :: rest)
  | l => l

/-- Round to the nearest integer, ties to even. -/
def roundHalfEven (q : ℚ) : ℤ :=
  let f := q.floor
  if q - f < 1 / 2 then f
  else if q - f > 1 / 2 then f + 1
  else if f % 2 = 0 then f else f + 1

/-- The Python format spec `,.2f`: fixed two decimals with thousands
separators (and a sign for negative values). -/
def fmt2 (q : ℚ) : String :=
  let n := roundHalfEven (q * 100)
  let m := n.natAbs
  let intStr := String.mk ((group3 (Nat.toDigits 10 (m / 100)).reverse).reverse)
  let frStr := (if m % 100 < 10 then "0" else "") ++ Nat.repr (m % 100)
  (if q < 0 then "-" else "") ++ intStr ++ "." ++ frStr

/-- The flowables appended to `elements` in `write_to_pdf`.  Distinct
constructors record which of the fixed styles the source applies
(title / section / subsection paragraph styles, the category table style
versus the total-banner table style). -/
inductive Element where
  | title (text : String)
  | spacer (width height : ℚ)
  | sectionHeader (text : String)
  | categoryHeader (text : String)
  | table (colWidths : List ℚ) (rows : List (List String))
  | totalTable (colWidths : List ℚ) (rows : List (List String))
  | pageBreak
deriving DecidableEq, Repr

/-- `item.get("amount", 0)`. -/
def itemAmount (it : Item) : PyVal :=
  it.amount.getD (PyVal.num 0)

/-- Applying the format spec `,.2f` to a value: raises (`none`) on a
non-numeric value. -/
def formatAmount : PyVal → Option String
  | PyVal.num q => some (fmt2 q)
  | PyVal.str _ => none

/-- One row of `table_data`: `[label, f"{amount:,.2f}"]` with the
`.get` defaults; `none` when the format call raises. -/
def itemRow (it : Item) : Option (List String) :=
  match formatAmount (itemAmount it) with
  | some a => some [it.label.getD "", a]
  | none => none

/-- The `for item in items` loop that builds the item rows of
`table_data`; fails at the first item whose amount cannot be formatted. -/
def buildRows : List Item → Option (List (List String))
  | [] => some []
  | it :: rest =>
      match itemRow it, buildRows rest with
      | some r, some rs => some (r :: rs)
      | _, _ => none

/-- One step of Python `sum`: adding the next item's amount; `none` when
the addition raises on a non-numeric value. -/
def addAmount (acc : Option ℚ) (it : Item) : Option ℚ :=
  match acc, itemAmount it with
  | some a, PyVal.num q => some (a + q)
  | _, _ => none

/-- `sum(item.get("amount", 0) for item in items)`. -/
def subtotalSum (items : List Item) : Option ℚ :=
  items.foldl addAmount (some 0)

/-- The header row of every category table. -/
def descRow : List String :=
  ["Description", "Amount (€)"]

/-- `colWidths=[12 * cm, 4 * cm]`. -/
def tableWidths : List ℚ :=
  [12 * cmQ, 4 * cmQ]

/-- The body of `for category, items in data_dict[...].items()` for one
category: skipped entirely when `items` is empty (`if items:`), otherwise a
category header, the item table with its subtotal row, and a spacer. -/
def categoryElements (category : String) (items : List Item) :
    Option (List Element) :=
  if items.isEmpty then some []
  else
    match buildRows items, subtotalSum items with
    | some rows, some st =>
        some [Element.categoryHeader category,
              Element.table tableWidths (descRow :: (rows ++ [["Subtotal", fmt2 st]])),
              Element.spacer 1 (3 * cmQ / 10)]
    | _, _ => none

/-- The whole category loop of one section, concatenating the per-category
element runs in mapping order. -/
def buildCats : SectionData → Option (List Element)
  | [] => some []
  | (category, items) :: rest =>
      match categoryElements category items, buildCats rest with
      | some es, some rest₁ => some (es ++ rest₁)
      | _, _ => none

/-- One step of the section-total loop: `total += sum(...)` for one
category. -/
def addSubtotal (acc : Option ℚ) (cat : String × List Item) : Option ℚ :=
  match acc, subtotalSum cat.2 with
  | some a, some s => some (a + s)
  | _, _ => none

/-- The section-total loop (`total_attivo` / `total_passivo`): it runs over
every category of the section, including empty ones. -/
def sectionTotal (sec : SectionData) : Option ℚ :=
  sec.foldl addSubtotal (some 0)

/-- Everything appended for one present section: the section header
paragraph, the category runs, and the total banner table. -/
def sectionElements (header totalLabel : String) (sec : SectionData) :
    Option (List Element) :=
  match buildCats sec, sectionTotal sec with
  | some cats, some tot =>
      some (Element.sectionHeader header ::
            (cats ++ [Element.totalTable tableWidths [[totalLabel, fmt2 tot]]]))
  | _, _ => none

/-- The document title paragraph's text. -/
def titleText : String :=
  "Reclassified Balance Sheet - Article 2424 CEE"

/-- The `if "..." in data_dict:` guard around one section: no elements
when the key is absent, the section's elements when it is present. -/
def optSection (o : Option SectionData) (header totalLabel : String) :
    Option (List Element) :=
  match o with
  | some sec => sectionElements header totalLabel sec
  | none => some []

/-- The full element list built by `write_to_pdf`: title, spacer, the
ATTIVO section when the key is present, an unconditional page break, the
PASSIVO section when the key is present. -/
def pdfElements (d : DataDict) : Option (List Element) :=
  match optSection (dictGet d "ATTIVO") "ATTIVO (Assets)" "TOTAL ATTIVO",
        optSection (dictGet d "PASSIVO") "PASSIVO (Liabilities & Equity)" "TOTAL PASSIVO" with
  | some a, some b =>
      some ([Element.title titleText, Element.spacer 1 (cmQ / 2)] ++ a ++
            (Element.pageBreak :: b))
  | _, _ => none

/-- The `SimpleDocTemplate` handed to `doc.build`: destination, page
geometry, and the element list. -/
structure PdfDoc where
  path : String
  pagesize : ℚ × ℚ
  rightMargin : ℚ
  leftMargin : ℚ
  topMargin : ℚ
  bottomMargin : ℚ
  elements : List Element
deriving DecidableEq, Repr

/-- `write_to_pdf` from `src/tools.py`: `none` when building the element
list raises. -/
def write_to_pdf (data_dict : DataDict) (output_path : String) : Option PdfDoc :=
  match pdfElements data_dict with
  | some es => some ⟨output_path, A4size, 2 * cmQ, 2 * cmQ, 2 * cmQ, 2 * cmQ, es⟩
  | none => none

/-- The numeric value a successfully rendered item contributes (the
mathematical reading of `item.get("amount", 0)`). -/
def itemVal (it : Item) : ℚ :=
  match itemAmount it with
  | PyVal.num q => q
  | PyVal.str _ => 0

/-- The rendered row of an item whose amount formats successfully. -/
def rowOf (it : Item) : List String :=
  [it.label.getD "", fmt2 (itemVal it)]

/-- The sum of a category's line-item amounts. -/
def sumItems (items : List Item) : ℚ :=
  (items.map itemVal).sum

/-- The sum of a section's category subtotals. -/
def sumSec (sec : SectionData) : ℚ :=
  (sec.map (fun c => sumItems c.2)).sum

/-- A concrete stand-in for the library JSON parser, recognising just the
empty object; used to instantiate parser-parametric statements. -/
def parseW : List Char → Option Json :=
  fun l => if l = [lbrace, rbrace] then some (Json.obj []) else none

/-- A concrete well-formed line item. -/
def itemW : Item :=
  ⟨some "License", some (PyVal.num (5 / 2))⟩

/-- A concrete one-section input document. -/
def dictW : DataDict :=
  [("ATTIVO", [("B) Software", [itemW])])]

/-- The report built from `dictW`. -/
def docW : PdfDoc :=
  ⟨"out.pdf", A4size, 2 * cmQ, 2 * cmQ, 2 * cmQ, 2 * cmQ,
   [Element.title titleText, Element.spacer 1 (cmQ / 2),
    Element.sectionHeader "ATTIVO (Assets)",
    Element.categoryHeader "B) Software",
    Element.table tableWidths
      [["Description", "Amount (€)"], ["License", "2.50"], ["Subtotal", "2.50"]],
    Element.spacer 1 (3 * cmQ / 10),
    Element.totalTable tableWidths [["TOTAL ATTIVO", "2.50"]],
    Element.pageBreak]⟩

/-- The report built from a document whose only section is present but
empty. -/
def docEmptySec : PdfDoc :=
  ⟨"out.pdf", A4size, 2 * cmQ, 2 * cmQ, 2 * cmQ, 2 * cmQ,
   [Element.title titleText, Element.spacer 1 (cmQ / 2),
    Element.sectionHeader "ATTIVO (Assets)",
    Element.totalTable tableWidths [["TOTAL ATTIVO", "0.00"]],
    Element.pageBreak]⟩

/-- The report built from a document whose only category is present but
has no items. -/
def docEmptyCat : PdfDoc :=
  ⟨"out.pdf", A4size, 2 * cmQ, 2 * cmQ, 2 * cmQ, 2 * cmQ,
   [Element.title titleText, Element.spacer 1 (cmQ / 2),
    Element.sectionHeader "ATTIVO (Assets)",
    Element.totalTable tableWidths [["TOTAL ATTIVO", "0.00"]],
    Element.pageBreak]⟩

/-- The report built from the empty input mapping. -/
def docEmpty : PdfDoc :=
  ⟨"x.pdf", A4size, 2 * cmQ, 2 * cmQ, 2 * cmQ, 2 * cmQ,
   [Element.title titleText, Element.spacer 1 (cmQ / 2), Element.pageBreak]⟩

/-- A document whose ATTIVO section is present but empty while PASSIVO has
content. -/
def dictMixed : DataDict :=
  [("ATTIVO", []), ("PASSIVO", [("A) Debiti", [⟨some "Banca", some (PyVal.num 10)⟩])])]

/-- The report built from `dictMixed`. -/
def docMixed : PdfDoc :=
  ⟨"m.pdf", A4size, 2 * cmQ, 2 * cmQ, 2 * cmQ, 2 * cmQ,
   [Element.title titleText, Element.spacer 1 (cmQ / 2),
    Element.sectionHeader "ATTIVO (Assets)",
    Element.totalTable tableWidths [["TOTAL ATTIVO", "0.00"]],
    Element.pageBreak,
    Element.sectionHeader "PASSIVO (Liabilities & Equity)",
    Element.categoryHeader "A) Debiti",
    Element.table tableWidths
      [["Description", "Amount (€)"], ["Banca", "10.00"], ["Subtotal", "10.00"]],
    Element.spacer 1 (3 * cmQ / 10),
    Element.totalTable tableWidths [["TOTAL PASSIVO", "10.00"]]]⟩

/-- A document whose PASSIVO section is present but empty while ATTIVO has
content. -/
def dictMixed2 : DataDict :=
  [("ATTIVO", [("B) Software", [itemW])]), ("PASSIVO", [])]

/-- The report built from `dictMixed2`. -/
def docMixed2 : PdfDoc :=
  ⟨"n.pdf", A4size, 2 * cmQ, 2 * cmQ, 2 * cmQ, 2 * cmQ,
   [Element.title titleText, Element.spacer 1 (cmQ / 2),
    Element.sectionHeader "ATTIVO (Assets)",
    Element.categoryHeader "B) Software",
    Element.table tableWidths
      [["Description", "Amount (€)"], ["License", "2.50"], ["Subtotal", "2.50"]],
    Element.spacer 1 (3 * cmQ / 10),
    Element.totalTable tableWidths [["TOTAL ATTIVO", "2.50"]],
    Element.pageBreak,
    Element.sectionHeader "PASSIVO (Liabilities & Equity)",
    Element.totalTable tableWidths [["TOTAL PASSIVO", "0.00"]]]⟩

/- ------------------------------------------------------------------ -/
/- Lemmas about the extractor                                          -/
/- ------------------------------------------------------------------ -/

lemma dropWhile_all_mem (p : Char → Bool) (pre : List Char) (c : Char) (rest : List Char)
    (hpre : ∀ x ∈ pre, p x = true) (hc : p c = false) :
    (pre ++ c :: rest).dropWhile p = c :: rest := by
  induction pre with
  | nil => simp [List.dropWhile_cons, hc]
  | cons x xs ih =>
      have hx : p x = true := hpre x (by simp)
      rw [List.cons_append, List.dropWhile_cons, if_pos hx]
      exact ih (fun y hy => hpre y (by simp [hy]))

lemma dropWhile_stop_split (p : Char → Bool) (pre : List Char) (c : Char) (rest : List Char)
    (hc : p c = false) (hpre : c ∉ pre) :
    ∃ pre₁, (pre ++ c :: rest).dropWhile p = pre₁ ++ c :: rest ∧ c ∉ pre₁ := by
  induction pre with
  | nil => exact ⟨[], by simp [List.dropWhile_cons, hc], by simp⟩
  | cons x xs ih =>
      have hxs : c ∉ xs := fun h => hpre (List.mem_cons_of_mem _ h)
      by_cases hx : p x = true
      · obtain ⟨pre₁, heq, hni⟩ := ih hxs
        refine ⟨pre₁, ?_, hni⟩
        rw [List.cons_append, List.dropWhile_cons, if_pos hx, heq]
      · refine ⟨x :: xs, ?_, hpre⟩
        rw [List.cons_append, List.dropWhile_cons, if_neg (by simpa using hx)]

lemma pyStrip_split (p : Char → Bool) (pre mid post : List Char)
    (hl : p lbrace = false) (hr : p rbrace = false)
    (hpre : lbrace ∉ pre) (hpost : rbrace ∉ post) :
    ∃ pre₁ post₁,
      pyStrip p (pre ++ (lbrace :: mid ++ [rbrace]) ++ post) =
        pre₁ ++ (lbrace :: mid ++ [rbrace]) ++ post₁ ∧
      lbrace ∉ pre₁ ∧ rbrace ∉ post₁ := by
  have hL : pre ++ (lbrace :: mid ++ [rbrace]) ++ post
      = pre ++ lbrace :: (mid ++ [rbrace] ++ post) := by
    simp
  obtain ⟨pre₁, e₁, n₁⟩ :=
    dropWhile_stop_split p pre lbrace (mid ++ [rbrace] ++ post) hl hpre
  have e₁' : (pre ++ (lbrace :: mid ++ [rbrace]) ++ post).dropWhile p
      = pre₁ ++ lbrace :: (mid ++ [rbrace] ++ post) := by
    rw [hL, e₁]
  have hrev : (pre₁ ++ lbrace :: (mid ++ [rbrace] ++ post)).reverse
      = post.reverse ++ rbrace :: (mid.reverse ++ (lbrace :: pre₁.reverse)) := by
    simp
  obtain ⟨post₂, e₂, n₂⟩ :=
    dropWhile_stop_split p post.reverse rbrace
      (mid.reverse ++ (lbrace :: pre₁.reverse)) hr (by simpa using hpost)
  refine ⟨pre₁, post₂.reverse, ?_, n₁, by simpa using n₂⟩
  unfold pyStrip
  rw [e₁', hrev, e₂]
  simp

lemma clean_split (pre mid post : List Char) (hpre : lbrace ∉ pre) (hpost : rbrace ∉ post) :
    ∃ pre₁ post₁, clean (pre ++ (lbrace :: mid ++ [rbrace]) ++ post) =
      pre₁ ++ (lbrace :: mid ++ [rbrace]) ++ post₁ ∧ lbrace ∉ pre₁ ∧ rbrace ∉ post₁ := by
  obtain ⟨a₁, b₁, e₁, ha₁, hb₁⟩ :=
    pyStrip_split (fun c => c == squote) pre mid post (by decide) (by decide) hpre hpost
  obtain ⟨a₂, b₂, e₂, ha₂, hb₂⟩ :=
    pyStrip_split (fun c => c == dquote) a₁ mid b₁ (by decide) (by decide) ha₁ hb₁
  obtain ⟨a₃, b₃, e₃, ha₃, hb₃⟩ :=
    pyStrip_split pyIsSpace a₂ mid b₂ (by decide) (by decide) ha₂ hb₂
  exact ⟨a₃, b₃, by rw [clean, e₁, e₂, e₃], ha₃, hb₃⟩

lemma findSpan_split (pre mid post : List Char)
    (hpre : lbrace ∉ pre) (hpost : rbrace ∉ post) :
    findSpan (pre ++ (lbrace :: mid ++ [rbrace]) ++ post) =
      some (lbrace :: mid ++ [rbrace]) := by
  have hL : pre ++ (lbrace :: mid ++ [rbrace]) ++ post
      = pre ++ lbrace :: (mid ++ [rbrace] ++ post) := by
    simp
  have h₁ : afterFirstBrace (pre ++ (lbrace :: mid ++ [rbrace]) ++ post)
      = lbrace :: (mid ++ [rbrace] ++ post) := by
    rw [afterFirstBrace, hL]
    exact dropWhile_all_mem _ pre lbrace _
      (fun x hx => bne_iff_ne.mpr (by intro h; subst h; exact hpre hx)) (by simp)
  have hrev : (lbrace :: (mid ++ [rbrace] ++ post)).reverse
      = post.reverse ++ rbrace :: (mid.reverse ++ [lbrace]) := by
    simp
  have h₂ : untilLastClose (lbrace :: (mid ++ [rbrace] ++ post))
      = lbrace :: mid ++ [rbrace] := by
    rw [untilLastClose, hrev,
      dropWhile_all_mem _ post.reverse rbrace _
        (fun x hx => bne_iff_ne.mpr
          (by intro h; subst h; exact hpost (List.mem_reverse.mp hx))) (by simp)]
    simp
  rw [findSpan, h₁, h₂]
  rfl

lemma dropWhile_head_not (p : Char → Bool) (l : List Char) (x : Char) (xs : List Char)
    (h : l.dropWhile p = x :: xs) : p x = false := by
  induction l with
  | nil => simp at h
  | cons a as ih =>
      rw [List.dropWhile_cons] at h
      by_cases ha : p a = true
      · rw [if_pos ha] at h
        exact ih h
      · rw [if_neg ha] at h
        cases h
        simpa using ha

lemma rbrace_mem_afterFirstBrace (l : List Char) :
    rbrace ∈ afterFirstBrace l ↔ ∃ a b c, l = a ++ lbrace :: (b ++ rbrace :: c) := by
  constructor
  · intro h
    cases e : l.dropWhile (fun c => c != lbrace) with
    | nil =>
        rw [afterFirstBrace, e] at h
        simp at h
    | cons x xs =>
        have hx : (x != lbrace) = false := dropWhile_head_not _ l x xs e
        have hx' : x = lbrace := by simpa using hx
        rw [afterFirstBrace, e, hx'] at h
        have hmem : rbrace ∈ xs := by
          rcases List.mem_cons.mp h with h₁ | h₁
          · exact absurd h₁ (by decide)
          · exact h₁
        obtain ⟨b, c, hbc⟩ := List.append_of_mem hmem
        refine ⟨l.takeWhile (fun c => c != lbrace), b, c, ?_⟩
        conv_lhs => rw [← List.takeWhile_append_dropWhile (fun c => c != lbrace) l]
        rw [e, hx', hbc]
  · rintro ⟨a, b, c, rfl⟩
    induction a with
    | nil =>
        rw [afterFirstBrace, List.nil_append, List.dropWhile_cons,
          if_neg (by simp)]
        simp
    | cons y ys ih =>
        rw [afterFirstBrace, List.cons_append, List.dropWhile_cons]
        by_cases hy : (y != lbrace) = true
        · rw [if_pos hy]
          exact ih
        · rw [if_neg hy]
          simp

lemma findSpan_eq_none_iff (l : List Char) :
    findSpan l = none ↔ ¬ ∃ a b c, l = a ++ lbrace :: (b ++ rbrace :: c) := by
  rw [← rbrace_mem_afterFirstBrace]
  rw [findSpan]
  constructor
  · intro h hmem
    by_cases he : (untilLastClose (afterFirstBrace l)).isEmpty = true
    · have : untilLastClose (afterFirstBrace l) = [] := List.isEmpty_iff.mp he
      rw [untilLastClose, ← List.reverse_eq_nil_iff, List.reverse_reverse] at this
      have := List.dropWhile_eq_nil_iff.mp this rbrace (List.mem_reverse.mpr hmem)
      simp at this
    · simp only [he] at h
      simp at h
  · intro hmem
    by_cases he : (untilLastClose (afterFirstBrace l)).isEmpty = true
    · simp only [he]
      simp
    · exfalso
      apply hmem
      have hne : untilLastClose (afterFirstBrace l) ≠ [] := by
        intro hnil
        exact he (List.isEmpty_iff.mpr hnil)
      have : (afterFirstBrace l).reverse.dropWhile (fun c => c != rbrace) ≠ [] := by
        intro hnil
        exact hne (by rw [untilLastClose, hnil]; rfl)
      cases e : (afterFirstBrace l).reverse.dropWhile (fun c => c != rbrace) with
      | nil => exact absurd e this
      | cons x xs =>
          have hx : (x != rbrace) = false :=
            dropWhile_head_not (fun c => c != rbrace) (afterFirstBrace l).reverse x xs e
          have hx' : x = rbrace := by simpa using hx
          have hsub : x ∈ (afterFirstBrace l).reverse := by
            have : x ∈ (afterFirstBrace l).reverse.dropWhile (fun c => c != rbrace) := by
              rw [e]; simp
            have hsfx := List.dropWhile_sublist (l := (afterFirstBrace l).reverse)
              (p := fun c => c != rbrace)
            exact hsfx.mem this
          rw [hx'] at hsub
          exact List.mem_reverse.mp hsub

/- ------------------------------------------------------------------ -/
/- Lemmas about the report builder                                     -/
/- ------------------------------------------------------------------ -/

lemma foldl_addAmount_none (items : List Item) :
    items.foldl addAmount none = none := by
  induction items with
  | nil => rfl
  | cons it rest ih => simpa [addAmount] using ih

lemma foldl_addAmount_some (items : List Item) (a st : ℚ)
    (h : items.foldl addAmount (some a) = some st) :
    st = a + sumItems items := by
  induction items generalizing a with
  | nil =>
      simp at h
      simp [sumItems, ← h]
  | cons it rest ih =>
      rw [List.foldl_cons] at h
      cases hv : itemAmount it with
      | num q =>
          have ha : addAmount (some a) it = some (a + q) := by
            simp [addAmount, hv]
          rw [ha] at h
          have := ih (a + q) h
          simp [sumItems, itemVal, hv, this]
          ring
      | str s =>
          have ha : addAmount (some a) it = none := by
            simp [addAmount, hv]
          rw [ha, foldl_addAmount_none] at h
          exact absurd h (by simp)

lemma subtotalSum_some (items : List Item) (st : ℚ)
    (h : subtotalSum items = some st) : st = sumItems items := by
  have := foldl_addAmount_some items 0 st h
  simpa using this

lemma itemRow_some (it : Item) (r : List String) (h : itemRow it = some r) :
    r = rowOf it := by
  rw [itemRow] at h
  cases hv : itemAmount it with
  | num q =>
      rw [hv] at h
      simp [formatAmount] at h
      simp [rowOf, itemVal, hv, ← h]
  | str s =>
      rw [hv] at h
      simp [formatAmount] at h

lemma itemRow_none_of_str (it : Item) (s : String)
    (h : it.amount = some (PyVal.str s)) : itemRow it = none := by
  rw [itemRow, itemAmount, h]
  rfl

lemma buildRows_some (items : List Item) (rows : List (List String))
    (h : buildRows items = some rows) : rows = items.map rowOf := by
  induction items generalizing rows with
  | nil =>
      simp [buildRows] at h
      simp [← h]
  | cons it rest ih =>
      rw [buildRows] at h
      cases h₁ : itemRow it with
      | none => rw [h₁] at h; exact absurd h (by simp)
      | some r =>
          cases h₂ : buildRows rest with
          | none => rw [h₁, h₂] at h; exact absurd h (by simp)
          | some rs =>
              rw [h₁, h₂] at h
              have hr := itemRow_some it r h₁
              have hrs := ih rs h₂
              simp at h
              simp [← h, hr, hrs]

lemma buildRows_none_of_mem (items : List Item) (it : Item)
    (hmem : it ∈ items) (h : itemRow it = none) : buildRows items = none := by
  induction items with
  | nil => simp at hmem
  | cons x xs ih =>
      rcases List.mem_cons.mp hmem with h₁ | h₁
      · subst h₁
        rw [buildRows, h]
      · rw [buildRows, ih h₁]
        cases itemRow x <;> rfl

lemma categoryElements_some (category : String) (items : List Item) (es : List Element)
    (h : categoryElements category items = some es) :
    (items = [] ∧ es = []) ∨
    (items ≠ [] ∧
      subtotalSum items = some (sumItems items) ∧
      es = [Element.categoryHeader category,
            Element.table tableWidths
              (descRow :: (items.map rowOf ++ [["Subtotal", fmt2 (sumItems items)]])),
            Element.spacer 1 (3 * cmQ / 10)]) := by
  rw [categoryElements] at h
  by_cases he : items.isEmpty
  · left
    refine ⟨List.isEmpty_iff.mp he, ?_⟩
    rw [if_pos he] at h
    simpa using h.symm
  · right
    rw [if_neg he] at h
    refine ⟨fun hnil => he (List.isEmpty_iff.mpr hnil), ?_⟩
    cases h₁ : buildRows items with
    | none => rw [h₁] at h; exact absurd h (by simp)
    | some rows =>
        cases h₂ : subtotalSum items with
        | none => rw [h₁, h₂] at h; exact absurd h (by simp)
        | some st =>
            rw [h₁, h₂] at h
            have hst := subtotalSum_some items st h₂
            have hrows := buildRows_some items rows h₁
            subst hst
            refine ⟨rfl, ?_⟩
            simp at h
            simp [← h, hrows]

lemma categoryElements_nil (category : String) :
    categoryElements category [] = some [] := by
  rfl

lemma categoryElements_none_of_mem (category : String) (items : List Item) (it : Item)
    (hmem : it ∈ items) (h : itemRow it = none) :
    categoryElements category items = none := by
  rw [categoryElements]
  have hne : items.isEmpty = false := by
    cases items with
    | nil => simp at hmem
    | cons a l => rfl
  rw [hne]
  simp only [Bool.false_eq_true, if_false]
  rw [buildRows_none_of_mem items it hmem h]

lemma buildCats_mem_table (sec : SectionData) (cats : List Element)
    (h : buildCats sec = some cats) (category : String) (items : List Item)
    (hmem : (category, items) ∈ sec) (hne : items ≠ []) :
    Element.table tableWidths
      (descRow :: (items.map rowOf ++ [["Subtotal", fmt2 (sumItems items)]])) ∈ cats := by
  induction sec generalizing cats with
  | nil => simp at hmem
  | cons hd rest ih =>
      obtain ⟨c₀, its₀⟩ := hd
      rw [buildCats] at h
      cases h₁ : categoryElements c₀ its₀ with
      | none => rw [h₁] at h; exact absurd h (by simp)
      | some es₀ =>
          cases h₂ : buildCats rest with
          | none => rw [h₁, h₂] at h; exact absurd h (by simp)
          | some r₁ =>
              rw [h₁, h₂] at h
              simp at h
              subst h
              rcases List.mem_cons.mp hmem with h₃ | h₃
              · have hc : c₀ = category ∧ its₀ = items := by
                  have := h₃.symm
                  exact ⟨congrArg Prod.fst this, congrArg Prod.snd this⟩
                obtain ⟨rfl, rfl⟩ := hc
                rcases categoryElements_some c₀ its₀ es₀ h₁ with ⟨hnil, _⟩ | ⟨_, _, hes⟩
                · exact absurd hnil hne
                · subst hes
                  simp
              · exact List.mem_append_right _ (ih r₁ h₂ h₃)

lemma buildCats_none_of_mem (sec : SectionData) (category : String) (items : List Item)
    (hmem : (category, items) ∈ sec) (h : categoryElements category items = none) :
    buildCats sec = none := by
  induction sec with
  | nil => simp at hmem
  | cons hd rest ih =>
      obtain ⟨c₀, its₀⟩ := hd
      rcases List.mem_cons.mp hmem with h₁ | h₁
      · have hc : c₀ = category ∧ its₀ = items := by
          have := h₁.symm
          exact ⟨congrArg Prod.fst this, congrArg Prod.snd this⟩
        obtain ⟨rfl, rfl⟩ := hc
        rw [buildCats, h]
      · rw [buildCats, ih h₁]
        cases categoryElements c₀ its₀ <;> rfl

lemma foldl_addSubtotal_none (sec : SectionData) :
    sec.foldl addSubtotal none = none := by
  induction sec with
  | nil => rfl
  | cons c rest ih => simpa [addSubtotal] using ih

lemma foldl_addSubtotal_some (sec : SectionData) (a t : ℚ)
    (h : sec.foldl addSubtotal (some a) = some t) :
    t = a + sumSec sec := by
  induction sec generalizing a with
  | nil =>
      simp at h
      simp [sumSec, ← h]
  | cons c rest ih =>
      rw [List.foldl_cons] at h
      cases hv : subtotalSum c.2 with
      | some s =>
          have ha : addSubtotal (some a) c = some (a + s) := by
            simp [addSubtotal, hv]
          rw [ha] at h
          have hs := subtotalSum_some c.2 s hv
          have := ih (a + s) h
          simp [sumSec, this, hs]
          ring
      | none =>
          have ha : addSubtotal (some a) c = none := by
            simp [addSubtotal, hv]
          rw [ha, foldl_addSubtotal_none] at h
          exact absurd h (by simp)

lemma sectionTotal_some (sec : SectionData) (t : ℚ)
    (h : sectionTotal sec = some t) : t = sumSec sec := by
  have := foldl_addSubtotal_some sec 0 t h
  simpa using this

lemma sectionElements_some (header totalLabel : String) (sec : SectionData)
    (es : List Element) (h : sectionElements header totalLabel sec = some es) :
    ∃ cats, buildCats sec = some cats ∧
      es = Element.sectionHeader header ::
        (cats ++ [Element.totalTable tableWidths [[totalLabel, fmt2 (sumSec sec)]]]) := by
  rw [sectionElements] at h
  cases h₁ : buildCats sec with
  | none => rw [h₁] at h; exact absurd h (by simp)
  | some cats =>
      cases h₂ : sectionTotal sec with
      | none => rw [h₁, h₂] at h; exact absurd h (by simp)
      | some tot =>
          rw [h₁, h₂] at h
          have ht := sectionTotal_some sec tot h₂
          subst ht
          simp at h
          exact ⟨cats, rfl, h.symm⟩

lemma sectionElements_none (header totalLabel : String) (sec : SectionData)
    (h : buildCats sec = none) : sectionElements header totalLabel sec = none := by
  rw [sectionElements, h]

lemma categoryElements_no_pageBreak (category : String) (items : List Item)
    (es : List Element) (h : categoryElements category items = some es) :
    Element.pageBreak ∉ es := by
  rcases categoryElements_some category items es h with ⟨_, rfl⟩ | ⟨_, _, rfl⟩
  · exact List.not_mem_nil _
  · simp

lemma buildCats_no_pageBreak (sec : SectionData) (cats : List Element)
    (h : buildCats sec = some cats) : Element.pageBreak ∉ cats := by
  induction sec generalizing cats with
  | nil =>
      rw [buildCats] at h
      cases h
      exact List.not_mem_nil _
  | cons hd rest ih =>
      obtain ⟨c₀, its₀⟩ := hd
      rw [buildCats] at h
      cases h₁ : categoryElements c₀ its₀ with
      | none => rw [h₁] at h; exact absurd h (by simp)
      | some es₀ =>
          cases h₂ : buildCats rest with
          | none => rw [h₁, h₂] at h; exact absurd h (by simp)
          | some r₁ =>
              rw [h₁, h₂] at h
              simp at h
              subst h
              intro hmem
              rcases List.mem_append.mp hmem with h₃ | h₃
              · exact categoryElements_no_pageBreak c₀ its₀ es₀ h₁ h₃
              · exact ih r₁ h₂ h₃

lemma sectionElements_no_pageBreak (header totalLabel : String) (sec : SectionData)
    (es : List Element) (h : sectionElements header totalLabel sec = some es) :
    Element.pageBreak ∉ es := by
  obtain ⟨cats, hc, rfl⟩ := sectionElements_some header totalLabel sec es h
  intro hmem
  rcases List.mem_cons.mp hmem with h₁ | h₁
  · exact absurd h₁ (by simp)
  · rcases List.mem_append.mp h₁ with h₂ | h₂
    · exact buildCats_no_pageBreak sec cats hc h₂
    · simp at h₂

lemma pdfElements_structure (d : DataDict) (es : List Element)
    (h : pdfElements d = some es) :
    ∃ a b, es = [Element.title titleText, Element.spacer 1 (cmQ / 2)] ++ a ++
        (Element.pageBreak :: b) ∧
      (match dictGet d "ATTIVO" with
        | some sec => sectionElements "ATTIVO (Assets)" "TOTAL ATTIVO" sec = some a
        | none => a = []) ∧
      (match dictGet d "PASSIVO" with
        | some sec =>
            sectionElements "PASSIVO (Liabilities & Equity)" "TOTAL PASSIVO" sec = some b
        | none => b = []) := by
  rw [pdfElements] at h
  cases hA : dictGet d "ATTIVO" with
  | none =>
      cases hP : dictGet d "PASSIVO" with
      | none =>
          rw [hA, hP] at h
          simp only [optSection] at h
          simp at h
          exact ⟨[], [], by simp [← h], by simp, by simp⟩
      | some secP =>
          rw [hA, hP] at h
          simp only [optSection] at h
          cases hb : sectionElements "PASSIVO (Liabilities & Equity)" "TOTAL PASSIVO" secP with
          | none => rw [hb] at h; exact absurd h (by simp)
          | some b =>
              rw [hb] at h
              simp at h
              exact ⟨[], b, by simp [← h], by simp, hb⟩
  | some secA =>
      rw [hA] at h
      simp only [optSection] at h
      cases ha : sectionElements "ATTIVO (Assets)" "TOTAL ATTIVO" secA with
      | none =>
          rw [ha] at h
          exact absurd h (by simp)
      | some a =>
          rw [ha] at h
          cases hP : dictGet d "PASSIVO" with
          | none =>
              rw [hP] at h
              simp only [optSection] at h
              simp at h
              exact ⟨a, [], by simp [← h], ha, by simp⟩
          | some secP =>
              rw [hP] at h
              simp only [optSection] at h
              cases hb : sectionElements "PASSIVO (Liabilities & Equity)" "TOTAL PASSIVO" secP with
              | none => rw [hb] at h; exact absurd h (by simp)
              | some b =>
                  rw [hb] at h
                  simp at h
                  exact ⟨a, b, by simp [← h], ha, hb⟩

lemma dictGet_none (d : DataDict) (k : String)
    (h : ∀ kv ∈ d, kv.1 ≠ k) : dictGet d k = none := by
  induction d with
  | nil => rfl
  | cons kv rest ih =>
      rw [dictGet]
      rw [if_neg (h kv (by simp))]
      exact ih (fun kv₁ h₁ => h kv₁ (List.mem_cons_of_mem _ h₁))

lemma write_to_pdf_some (d : DataDict) (p : String) (doc : PdfDoc)
    (h : write_to_pdf d p = some doc) :
    pdfElements d = some doc.elements ∧ doc.path = p := by
  rw [write_to_pdf] at h
  cases he : pdfElements d with
  | none => rw [he] at h; exact absurd h (by simp)
  | some es =>
      rw [he] at h
      simp at h
      exact ⟨by rw [← h], by rw [← h]⟩

lemma pdfElements_none_of_attivo (d : DataDict) (sec : SectionData)
    (hA : dictGet d "ATTIVO" = some sec)
    (h : sectionElements "ATTIVO (Assets)" "TOTAL ATTIVO" sec = none) :
    pdfElements d = none := by
  rw [pdfElements, hA]
  simp only [optSection]
  rw [h]

lemma pdfElements_none_of_passivo (d : DataDict) (sec : SectionData)
    (hP : dictGet d "PASSIVO" = some sec)
    (h : sectionElements "PASSIVO (Liabilities & Equity)" "TOTAL PASSIVO" sec = none) :
    pdfElements d = none := by
  have hopt : optSection (dictGet d "PASSIVO") "PASSIVO (Liabilities & Equity)"
      "TOTAL PASSIVO" = none := by
    rw [hP]
    simp only [optSection]
    exact h
  rw [pdfElements, hopt]
  cases hA : optSection (dictGet d "ATTIVO") "ATTIVO (Assets)" "TOTAL ATTIVO" <;> rfl

lemma fmt2_zero : fmt2 0 = "0.00" := by
  decide

lemma extract_json_eq_of_span (parse : List Char → Option Json) (s sp : List Char)
    (h : findSpan (clean s) = some sp) :
    extract_json parse s =
      match parse sp with
      | some j => Except.ok j
      | none => Except.error ExtractErr.decodeError := by
  rw [extract_json, h]

lemma section_report_ok (header totalLabel : String) (sec : SectionData)
    (es : List Element) (h : sectionElements header totalLabel sec = some es) :
    (∀ category items, (category, items) ∈ sec → items ≠ [] →
      Element.table tableWidths
        (descRow :: (items.map rowOf ++ [["Subtotal", fmt2 (sumItems items)]])) ∈ es) ∧
    Element.totalTable tableWidths [[totalLabel, fmt2 (sumSec sec)]] ∈ es := by
  obtain ⟨cats, hc, rfl⟩ := sectionElements_some header totalLabel sec es h
  constructor
  · intro category items hmem hne
    exact List.mem_cons_of_mem _
      (List.mem_append_left _ (buildCats_mem_table sec cats hc category items hmem hne))
  · exact List.mem_cons_of_mem _ (List.mem_append_right _ (by simp))

/- ------------------------------------------------------------------ -/
/- Claim theorems                                                      -/
/- ------------------------------------------------------------------ -/

/-- Claim C1: whenever `write_to_pdf` produces a report, every rendered
category table carries a Subtotal row equal to the formatted sum of that
category's line-item amounts, and each section's TOTAL banner equals the
formatted sum of that section's category subtotals. -/
theorem subtotal_total_invariant (d : DataDict) (p : String) (doc : PdfDoc)
    (h : write_to_pdf d p = some doc) :
    (∀ sec, dictGet d "ATTIVO" = some sec →
      (∀ category items, (category, items) ∈ sec → items ≠ [] →
        Element.table tableWidths
          (descRow :: (items.map rowOf ++ [["Subtotal", fmt2 (sumItems items)]])) ∈
            doc.elements) ∧
      Element.totalTable tableWidths [["TOTAL ATTIVO", fmt2 (sumSec sec)]] ∈ doc.elements) ∧
    (∀ sec, dictGet d "PASSIVO" = some sec →
      (∀ category items, (category, items) ∈ sec → items ≠ [] →
        Element.table tableWidths
          (descRow :: (items.map rowOf ++ [["Subtotal", fmt2 (sumItems items)]])) ∈
            doc.elements) ∧
      Element.totalTable tableWidths [["TOTAL PASSIVO", fmt2 (sumSec sec)]] ∈ doc.elements) := by
  obtain ⟨hpe, _⟩ := write_to_pdf_some d p doc h
  obtain ⟨a, b, hes, hA, hB⟩ := pdfElements_structure d doc.elements hpe
  have lifta : ∀ x, x ∈ a → x ∈ doc.elements := by
    intro x hx
    rw [hes]
    simp [hx]
  have liftb : ∀ x, x ∈ b → x ∈ doc.elements := by
    intro x hx
    rw [hes]
    simp [hx]
  constructor
  · intro sec hsec
    rw [hsec] at hA
    have hA' : sectionElements "ATTIVO (Assets)" "TOTAL ATTIVO" sec = some a := hA
    obtain ⟨ht, hb⟩ := section_report_ok _ _ sec a hA'
    exact ⟨fun category items hmem hne => lifta _ (ht category items hmem hne), lifta _ hb⟩
  · intro sec hsec
    rw [hsec] at hB
    have hB' : sectionElements "PASSIVO (Liabilities & Equity)" "TOTAL PASSIVO" sec
        = some b := hB
    obtain ⟨ht, hbn⟩ := section_report_ok _ _ sec b hB'
    exact ⟨fun category items hmem hne => liftb _ (ht category items hmem hne), liftb _ hbn⟩

/-- Witness for C1 on a concrete one-category document: the rendered
Subtotal row and TOTAL banner both show the formatted item sum `2.50`. -/
theorem subtotal_total_invariant_witness :
    Element.table tableWidths
      (descRow :: ([itemW].map rowOf ++ [["Subtotal", fmt2 (sumItems [itemW])]])) ∈
        docW.elements ∧
    Element.totalTable tableWidths
      [["TOTAL ATTIVO", fmt2 (sumSec [("B) Software", [itemW])])]] ∈ docW.elements := by
  have h := subtotal_total_invariant dictW "out.pdf" docW (by decide)
  have h₁ := h.1 [("B) Software", [itemW])] rfl
  exact ⟨h₁.1 "B) Software" [itemW] (by simp) (by simp), h₁.2⟩

/-- Claim C2: on input that is one object span (first character an opening
brace, last character a closing brace, with no opening brace before it and
no closing brace after it), the candidate span located by `extract_json` is
exactly that object span, and the parsed object is returned unchanged. -/
theorem extract_returns_embedded_object (parse : List Char → Option Json)
    (pre mid post : List Char) (j : Json)
    (hpre : lbrace ∉ pre) (hpost : rbrace ∉ post)
    (hparse : parse (lbrace :: mid ++ [rbrace]) = some j) :
    findSpan (clean (pre ++ (lbrace :: mid ++ [rbrace]) ++ post)) =
      some (lbrace :: mid ++ [rbrace]) ∧
    extract_json parse (pre ++ (lbrace :: mid ++ [rbrace]) ++ post) = Except.ok j := by
  obtain ⟨pre₁, post₁, he, h₁, h₂⟩ := clean_split pre mid post hpre hpost
  have hspan : findSpan (clean (pre ++ (lbrace :: mid ++ [rbrace]) ++ post)) =
      some (lbrace :: mid ++ [rbrace]) := by
    rw [he]
    exact findSpan_split pre₁ mid post₁ h₁ h₂
  refine ⟨hspan, ?_⟩
  rw [extract_json_eq_of_span parse _ _ hspan, hparse]

/-- Witness for C2 at a concrete input: the empty object surrounded by one
letter on each side. -/
theorem extract_returns_embedded_object_witness :
    findSpan (clean ([Char.ofNat 97] ++ (lbrace :: [] ++ [rbrace]) ++ [Char.ofNat 98])) =
      some (lbrace :: [] ++ [rbrace]) ∧
    extract_json parseW ([Char.ofNat 97] ++ (lbrace :: [] ++ [rbrace]) ++ [Char.ofNat 98]) =
      Except.ok (Json.obj []) :=
  extract_returns_embedded_object parseW [Char.ofNat 97] [] [Char.ofNat 98] (Json.obj [])
    (by decide) (by decide) (by rfl)

/-- Claim C3: `extract_json` fails exactly when the cleaned input has no
span from an opening brace to a later closing brace, or when the located
span does not parse as JSON; and a failing call never also returns a
document. -/
theorem extract_error_characterization (parse : List Char → Option Json) (s : List Char) :
    ((∃ e, extract_json parse s = Except.error e) ↔
      ((¬ ∃ a b c, clean s = a ++ lbrace :: (b ++ rbrace :: c)) ∨
       (∃ sp, findSpan (clean s) = some sp ∧ parse sp = none))) ∧
    (∀ e j, extract_json parse s = Except.error e →
      extract_json parse s ≠ Except.ok j) := by
  constructor
  · cases hf : findSpan (clean s) with
    | none =>
        have he : extract_json parse s = Except.error ExtractErr.noJson := by
          rw [extract_json, hf]
        constructor
        · intro _
          exact Or.inl ((findSpan_eq_none_iff (clean s)).mp hf)
        · intro _
          exact ⟨ExtractErr.noJson, he⟩
    | some sp =>
        cases hp : parse sp with
        | none =>
            have he : extract_json parse s = Except.error ExtractErr.decodeError := by
              rw [extract_json_eq_of_span parse s sp hf, hp]
            constructor
            · intro _
              exact Or.inr ⟨sp, rfl, hp⟩
            · intro _
              exact ⟨ExtractErr.decodeError, he⟩
        | some j =>
            have he : extract_json parse s = Except.ok j := by
              rw [extract_json_eq_of_span parse s sp hf, hp]
            constructor
            · rintro ⟨e, hee⟩
              rw [he] at hee
              exact absurd hee (by simp)
            · rintro (hns | ⟨sp₁, hsp₁, hp₁⟩)
              · have h₀ := (findSpan_eq_none_iff (clean s)).mpr hns
                rw [hf] at h₀
                exact absurd h₀ (by simp)
              · have hsp₂ : sp = sp₁ := by
                  injection hsp₁
                rw [← hsp₂] at hp₁
                rw [hp₁] at hp
                exact absurd hp (by simp)
  · intro e j h₁ h₂
    rw [h₁] at h₂
    exact absurd h₂ (by simp)

/-- Counterexample to C4: a present but non-numeric amount makes the format
call raise, so no report is produced at all (the claim predicts a report
with that amount rendered as zero). -/
theorem nonnumeric_amount_counterexample :
    write_to_pdf
      [("ATTIVO", [("B) Immobilizzazioni", [⟨some "Software", some (PyVal.str "n/a")⟩])])]
      "out.pdf" = none := by
  decide

/-- Amended C4: an item whose amount key is absent is rendered with amount
zero, but an item whose amount is present and non-numeric raises, aborting
the conversion with no report produced — whichever of the two sections the
item lies in. -/
theorem nonnumeric_amount_amended :
    (∀ it : Item, it.amount = none → itemRow it = some [it.label.getD "", "0.00"]) ∧
    (∀ (d : DataDict) (p category : String) (sec : SectionData)
        (items : List Item) (it : Item) (s : String),
      (dictGet d "ATTIVO" = some sec ∨ dictGet d "PASSIVO" = some sec) →
      (category, items) ∈ sec →
      it ∈ items → it.amount = some (PyVal.str s) →
      write_to_pdf d p = none) := by
  constructor
  · intro it ha
    have hia : itemAmount it = PyVal.num 0 := by
      rw [itemAmount, ha]
      rfl
    rw [itemRow, hia]
    simp [formatAmount, fmt2_zero]
  · intro d p category sec items it s hkey hmem hit ha
    have h₁ : itemRow it = none := itemRow_none_of_str it s ha
    have h₂ : categoryElements category items = none :=
      categoryElements_none_of_mem category items it hit h₁
    have h₃ : buildCats sec = none := buildCats_none_of_mem sec category items hmem h₂
    have h₅ : pdfElements d = none := by
      rcases hkey with hA | hP
      · exact pdfElements_none_of_attivo d sec hA
          (sectionElements_none "ATTIVO (Assets)" "TOTAL ATTIVO" sec h₃)
      · exact pdfElements_none_of_passivo d sec hP
          (sectionElements_none "PASSIVO (Liabilities & Equity)" "TOTAL PASSIVO" sec h₃)
    rw [write_to_pdf, h₅]

/-- Witness for the amended C4: a missing amount renders as zero, and a
string amount kills the whole conversion from either section. -/
theorem nonnumeric_amount_amended_witness :
    itemRow ⟨some "License", none⟩ = some ["License", "0.00"] ∧
    write_to_pdf [("ATTIVO", [("B) X", [⟨some "L", some (PyVal.str "n/a")⟩])])]
      "o.pdf" = none ∧
    write_to_pdf [("PASSIVO", [("D) Debiti", [⟨some "L", some (PyVal.str "n/a")⟩])])]
      "q.pdf" = none :=
  ⟨nonnumeric_amount_amended.1 ⟨some "License", none⟩ rfl,
   nonnumeric_amount_amended.2
     [("ATTIVO", [("B) X", [⟨some "L", some (PyVal.str "n/a")⟩])])] "o.pdf" "B) X"
     [("B) X", [⟨some "L", some (PyVal.str "n/a")⟩])]
     [⟨some "L", some (PyVal.str "n/a")⟩]
     ⟨some "L", some (PyVal.str "n/a")⟩ "n/a"
     (Or.inl rfl) (by simp) (by simp) rfl,
   nonnumeric_amount_amended.2
     [("PASSIVO", [("D) Debiti", [⟨some "L", some (PyVal.str "n/a")⟩])])] "q.pdf" "D) Debiti"
     [("D) Debiti", [⟨some "L", some (PyVal.str "n/a")⟩])]
     [⟨some "L", some (PyVal.str "n/a")⟩]
     ⟨some "L", some (PyVal.str "n/a")⟩ "n/a"
     (Or.inr rfl) (by simp) (by simp) rfl⟩

/-- Counterexample to C5: a section key mapping to an empty mapping is not
omitted — the report still carries its section header and a TOTAL banner
of 0.00. -/
theorem empty_section_counterexample :
    write_to_pdf [("ATTIVO", [])] "out.pdf" = some docEmptySec ∧
    Element.sectionHeader "ATTIVO (Assets)" ∈ docEmptySec.elements ∧
    Element.totalTable tableWidths [["TOTAL ATTIVO", "0.00"]] ∈ docEmptySec.elements := by
  refine ⟨by decide, by decide, by decide⟩

/-- Amended C5: a section whose key is present with an empty mapping is
never an error and is never omitted: its entire contribution to any
produced report is exactly its section header followed by a 0.00 TOTAL
banner (no category content), whatever the other section holds. -/
theorem empty_section_amended :
    (∀ header totalLabel : String, sectionElements header totalLabel [] =
      some [Element.sectionHeader header,
            Element.totalTable tableWidths [[totalLabel, "0.00"]]]) ∧
    (∀ (d : DataDict) (p : String) (doc : PdfDoc),
      write_to_pdf d p = some doc → dictGet d "ATTIVO" = some [] →
      ∃ pas, doc.elements =
        [Element.title titleText, Element.spacer 1 (cmQ / 2),
         Element.sectionHeader "ATTIVO (Assets)",
         Element.totalTable tableWidths [["TOTAL ATTIVO", "0.00"]],
         Element.pageBreak] ++ pas) ∧
    (∀ (d : DataDict) (p : String) (doc : PdfDoc),
      write_to_pdf d p = some doc → dictGet d "PASSIVO" = some [] →
      ∃ att, doc.elements =
        [Element.title titleText, Element.spacer 1 (cmQ / 2)] ++ att ++
          [Element.pageBreak,
           Element.sectionHeader "PASSIVO (Liabilities & Equity)",
           Element.totalTable tableWidths [["TOTAL PASSIVO", "0.00"]]]) := by
  have hnil : ∀ header totalLabel : String, sectionElements header totalLabel [] =
      some [Element.sectionHeader header,
            Element.totalTable tableWidths [[totalLabel, "0.00"]]] := by
    intro header totalLabel
    simp only [sectionElements, buildCats, sectionTotal, List.foldl_nil]
    simp [fmt2_zero]
  refine ⟨hnil, ?_, ?_⟩
  · intro d p doc h hA0
    obtain ⟨hpe, _⟩ := write_to_pdf_some d p doc h
    obtain ⟨a, b, hes, hA, hB⟩ := pdfElements_structure d doc.elements hpe
    rw [hA0] at hA
    have hA' : sectionElements "ATTIVO (Assets)" "TOTAL ATTIVO" [] = some a := hA
    rw [hnil "ATTIVO (Assets)" "TOTAL ATTIVO"] at hA'
    have ha : a = [Element.sectionHeader "ATTIVO (Assets)",
        Element.totalTable tableWidths [["TOTAL ATTIVO", "0.00"]]] :=
      (Option.some_inj.mp hA').symm
    refine ⟨b, ?_⟩
    rw [hes, ha]
    simp
  · intro d p doc h hP0
    obtain ⟨hpe, _⟩ := write_to_pdf_some d p doc h
    obtain ⟨a, b, hes, hA, hB⟩ := pdfElements_structure d doc.elements hpe
    rw [hP0] at hB
    have hB' : sectionElements "PASSIVO (Liabilities & Equity)" "TOTAL PASSIVO" []
        = some b := hB
    rw [hnil "PASSIVO (Liabilities & Equity)" "TOTAL PASSIVO"] at hB'
    have hb : b = [Element.sectionHeader "PASSIVO (Liabilities & Equity)",
        Element.totalTable tableWidths [["TOTAL PASSIVO", "0.00"]]] :=
      (Option.some_inj.mp hB').symm
    refine ⟨a, ?_⟩
    rw [hes, hb]

/-- Witness for the amended C5 on mixed concrete documents: an empty ATTIVO
next to a populated PASSIVO, and an empty PASSIVO next to a populated
ATTIVO, both render the empty section's header and 0.00 banner. -/
theorem empty_section_amended_witness :
    sectionElements "ATTIVO (Assets)" "TOTAL ATTIVO" [] =
      some [Element.sectionHeader "ATTIVO (Assets)",
            Element.totalTable tableWidths [["TOTAL ATTIVO", "0.00"]]] ∧
    Element.totalTable tableWidths [["TOTAL ATTIVO", "0.00"]] ∈ docMixed.elements ∧
    Element.totalTable tableWidths [["TOTAL PASSIVO", "0.00"]] ∈ docMixed2.elements := by
  refine ⟨empty_section_amended.1 "ATTIVO (Assets)" "TOTAL ATTIVO", ?_, ?_⟩
  · obtain ⟨pas, hp⟩ :=
      empty_section_amended.2.1 dictMixed "m.pdf" docMixed (by decide) (by decide)
    rw [hp]
    simp
  · obtain ⟨att, hp⟩ :=
      empty_section_amended.2.2 dictMixed2 "n.pdf" docMixed2 (by decide) (by decide)
    rw [hp]
    simp

/-- Counterexample to C6: a present category with zero items is dropped
from the rendering — the output holds no category header and no table (so
no Subtotal row) for it. -/
theorem empty_category_counterexample :
    write_to_pdf [("ATTIVO", [("A) Crediti", [])])] "out.pdf" = some docEmptyCat ∧
    Element.categoryHeader "A) Crediti" ∉ docEmptyCat.elements ∧
    Element.table tableWidths (descRow :: ([] ++ [["Subtotal", "0.00"]])) ∉
      docEmptyCat.elements := by
  refine ⟨by decide, by decide, by decide⟩

/-- Amended C6: a category with zero items is skipped entirely in rendering
while still contributing zero to the section total; a category whose items
are present but sum to zero still renders a `0.00` Subtotal row. -/
theorem empty_category_amended :
    (∀ category : String, categoryElements category [] = some []) ∧
    (∀ (category : String) (sec : SectionData),
      sectionTotal ((category, []) :: sec) = sectionTotal sec) ∧
    (∀ (category : String) (lab : Option String),
      categoryElements category [⟨lab, some (PyVal.num 0)⟩] =
        some [Element.categoryHeader category,
              Element.table tableWidths
                (descRow :: ([[lab.getD "", "0.00"]] ++ [["Subtotal", "0.00"]])),
              Element.spacer 1 (3 * cmQ / 10)]) := by
  refine ⟨fun category => rfl, ?_, ?_⟩
  · intro category sec
    rw [sectionTotal, sectionTotal, List.foldl_cons]
    have : addSubtotal (some 0) (category, []) = some 0 := by
      simp [addSubtotal, subtotalSum]
    rw [this]
  · intro category lab
    have hrow : itemRow ⟨lab, some (PyVal.num 0)⟩ = some [lab.getD "", "0.00"] := by
      rw [itemRow]
      simp [itemAmount, formatAmount, fmt2_zero]
    have hsub : subtotalSum [⟨lab, some (PyVal.num 0)⟩] = some 0 := by
      simp [subtotalSum, addAmount, itemAmount]
    rw [categoryElements]
    simp only [List.isEmpty_cons, Bool.false_eq_true, if_false]
    rw [buildRows, hrow, buildRows, hsub]
    simp [fmt2_zero]

/-- Witness for the amended C6 at concrete inputs. -/
theorem empty_category_amended_witness :
    categoryElements "A) Vuota" [] = some [] ∧
    sectionTotal [("A) Vuota", []), ("B) Piena", [⟨some "L", some (PyVal.num 3)⟩])] =
      sectionTotal [("B) Piena", [⟨some "L", some (PyVal.num 3)⟩])] ∧
    categoryElements "C) Zero" [⟨some "Anticipi", some (PyVal.num 0)⟩] =
      some [Element.categoryHeader "C) Zero",
            Element.table tableWidths
              (descRow :: ([["Anticipi", "0.00"]] ++ [["Subtotal", "0.00"]])),
            Element.spacer 1 (3 * cmQ / 10)] :=
  ⟨empty_category_amended.1 "A) Vuota",
   empty_category_amended.2.1 "A) Vuota" [("B) Piena", [⟨some "L", some (PyVal.num 3)⟩])],
   empty_category_amended.2.2 "C) Zero" (some "Anticipi")⟩

/-- Claim C7: the two fallbacks are per field — an item with no label key
renders with the empty-string label (whatever its amount), an item with no
amount key renders with amount zero (whatever its label), and any item
whose amount resolves to a number is rendered rather than rejected. -/
theorem missing_fields_default :
    (∀ (it : Item) (q : ℚ), it.label = none → itemAmount it = PyVal.num q →
      itemRow it = some ["", fmt2 q]) ∧
    (∀ it : Item, it.amount = none → itemRow it = some [it.label.getD "", "0.00"]) ∧
    (∀ (category : String) (it : Item) (q : ℚ), itemAmount it = PyVal.num q →
      categoryElements category [it] =
        some [Element.categoryHeader category,
              Element.table tableWidths
                (descRow :: ([[it.label.getD "", fmt2 q]] ++ [["Subtotal", fmt2 q]])),
              Element.spacer 1 (3 * cmQ / 10)]) := by
  refine ⟨?_, ?_, ?_⟩
  · intro it q hl hia
    rw [itemRow, hia]
    simp [formatAmount, hl]
  · intro it ha
    have hia : itemAmount it = PyVal.num 0 := by
      rw [itemAmount, ha]
      rfl
    rw [itemRow, hia]
    simp [formatAmount, fmt2_zero]
  · intro category it q hia
    have hrow : itemRow it = some [it.label.getD "", fmt2 q] := by
      rw [itemRow, hia]
      simp [formatAmount]
    have hsub : subtotalSum [it] = some q := by
      simp [subtotalSum, addAmount, hia]
    rw [categoryElements]
    simp only [List.isEmpty_cons, Bool.false_eq_true, if_false]
    rw [buildRows, hrow, buildRows, hsub]

/-- Witness for C7: a label-less item with amount 7 renders as
`["", "7.00"]`, an amount-less item with a label renders as
`["Crediti", "0.00"]`, and the label-less item's category still renders. -/
theorem missing_fields_default_witness :
    itemRow ⟨none, some (PyVal.num 7)⟩ = some ["", fmt2 7] ∧
    itemRow ⟨some "Crediti", none⟩ = some ["Crediti", "0.00"] ∧
    categoryElements "A) X" [⟨none, some (PyVal.num 7)⟩] =
      some [Element.categoryHeader "A) X",
            Element.table tableWidths
              (descRow :: ([["", fmt2 7]] ++ [["Subtotal", fmt2 7]])),
            Element.spacer 1 (3 * cmQ / 10)] :=
  ⟨missing_fields_default.1 ⟨none, some (PyVal.num 7)⟩ 7 rfl rfl,
   missing_fields_default.2.1 ⟨some "Crediti", none⟩ rfl,
   missing_fields_default.2.2 "A) X" ⟨none, some (PyVal.num 7)⟩ 7 rfl⟩

/-- Claim C8: every produced report contains exactly one page break, placed
after all assets-section content and before all liabilities-section
content, whatever the input document holds. -/
theorem single_page_break (d : DataDict) (p : String) (doc : PdfDoc)
    (h : write_to_pdf d p = some doc) :
    ∃ att pas,
      doc.elements = [Element.title titleText, Element.spacer 1 (cmQ / 2)] ++ att ++
        (Element.pageBreak :: pas) ∧
      Element.pageBreak ∉ att ∧ Element.pageBreak ∉ pas ∧
      doc.elements.count Element.pageBreak = 1 := by
  obtain ⟨hpe, _⟩ := write_to_pdf_some d p doc h
  obtain ⟨a, b, hes, hA, hB⟩ := pdfElements_structure d doc.elements hpe
  have hna : Element.pageBreak ∉ a := by
    cases hd : dictGet d "ATTIVO" with
    | some sec =>
        rw [hd] at hA
        exact sectionElements_no_pageBreak _ _ sec a hA
    | none =>
        rw [hd] at hA
        have ha : a = [] := hA
        rw [ha]
        exact List.not_mem_nil _
  have hnb : Element.pageBreak ∉ b := by
    cases hd : dictGet d "PASSIVO" with
    | some sec =>
        rw [hd] at hB
        exact sectionElements_no_pageBreak _ _ sec b hB
    | none =>
        rw [hd] at hB
        have hb : b = [] := hB
        rw [hb]
        exact List.not_mem_nil _
  refine ⟨a, b, hes, hna, hnb, ?_⟩
  have c₀ : List.count Element.pageBreak
      [Element.title titleText, Element.spacer 1 (cmQ / 2)] = 0 := by
    decide
  rw [hes, List.count_append, List.count_append, c₀,
    List.count_eq_zero.mpr hna, List.count_cons, List.count_eq_zero.mpr hnb]
  simp

/-- Witness for C8 on the empty input document. -/
theorem single_page_break_witness :
    docEmpty.elements.count Element.pageBreak = 1 := by
  obtain ⟨att, pas, h₁, h₂, h₃, h₄⟩ := single_page_break [] "x.pdf" docEmpty (by decide)
  exact h₄

/-- Claim C9: the element sequence handed to the PDF engine is a pure
function of the input document — two renderings of the same document (to
any destinations) yield identical element sequences. -/
theorem render_deterministic (d : DataDict) (p₁ p₂ : String) :
    (write_to_pdf d p₁).map PdfDoc.elements = (write_to_pdf d p₂).map PdfDoc.elements := by
  rw [write_to_pdf, write_to_pdf]
  cases pdfElements d <;> rfl

/-- Claim C10: section lookup is exact and case-sensitive — an input
mapping none of whose keys is exactly "ATTIVO" or "PASSIVO" renders only
the title, the spacer and the page break. -/
theorem exact_section_keys (d : DataDict) (p : String)
    (h : ∀ kv ∈ d, kv.1 ≠ "ATTIVO" ∧ kv.1 ≠ "PASSIVO") :
    write_to_pdf d p = some ⟨p, A4size, 2 * cmQ, 2 * cmQ, 2 * cmQ, 2 * cmQ,
      [Element.title titleText, Element.spacer 1 (cmQ / 2), Element.pageBreak]⟩ := by
  have hA : dictGet d "ATTIVO" = none := dictGet_none d _ (fun kv hkv => (h kv hkv).1)
  have hP : dictGet d "PASSIVO" = none := dictGet_none d _ (fun kv hkv => (h kv hkv).2)
  rw [write_to_pdf, pdfElements, hA, hP]
  rfl

/-- Witness for C10: lower-case and English spellings of the section keys
produce no section content. -/
theorem exact_section_keys_witness :
    write_to_pdf
      [("attivo", [("A) Cassa", [⟨some "Cassa", some (PyVal.num 5)⟩])]), ("Assets", [])]
      "out.pdf" = some ⟨"out.pdf", A4size, 2 * cmQ, 2 * cmQ, 2 * cmQ, 2 * cmQ,
      [Element.title titleText, Element.spacer 1 (cmQ / 2), Element.pageBreak]⟩ :=
  exact_section_keys
    [("attivo", [("A) Cassa", [⟨some "Cassa", some (PyVal.num 5)⟩])]), ("Assets", [])]
    "out.pdf" (by decide)

end Forza
